import Mathlib

/-!
# JobFit AI — matching core, shallow embedding

The repository ships a Next.js frontend (`frontend/src/lib/api.ts`,
`frontend/src/lib/auth.tsx`, page components) that calls a FastAPI matching
backend (`/jobs/recommend`, `/company/candidates/match`).  The backend's
matching core itself is not part of the source tree here, so its data model
and operations are modelled from the specification (each such definition
carries a `Modelled from the spec:` doc comment).  The frontend request
helper, which is present in the source, is embedded directly from
`frontend/src/lib/api.ts` / `auth.tsx`.
-/

namespace JobFit

/-- Modelled from the spec: experience-level buckets with the fixed total
order entry < junior < mid < senior < lead (§4.3).  The backend that owns
this enumeration is not in the source tree. -/
inductive Bucket where
  | entry
  | junior
  | mid
  | senior
  | lead
deriving DecidableEq, Repr

/-- Position of a bucket in the fixed total order. -/
def Bucket.idx : Bucket → Nat
  | .entry => 0
  | .junior => 1
  | .mid => 2
  | .senior => 3
  | .lead => 4

instance : LE Bucket := ⟨fun a b => a.idx ≤ b.idx⟩

instance : DecidableRel (fun a b : Bucket => a ≤ b) :=
  fun a b => Nat.decLe a.idx b.idx

/-- Modelled from the spec: posting lifecycle status (§3). -/
inductive JobStatus where
  | draft
  | published
  | closed
deriving DecidableEq, Repr

/-- Modelled from the spec: a job-seeker profile as the matching core sees it
(§3): id, public/private visibility flag, declared experience bucket,
preferred locations, canonical text (the Text Canonicalizer's output, taken
as given here) and `updated_at`. -/
structure Profile where
  id : Nat
  is_public : Bool
  experience_level : Option Bucket
  preferred_locations : List String
  canonical_text : String
  updated_at : Nat
deriving DecidableEq, Repr

/-- Modelled from the spec: a job posting as the matching core sees it (§3):
id, draft/published/closed status, optional accepted experience-bucket range,
optional location, canonical text and `updated_at`. -/
structure Posting where
  id : Nat
  status : JobStatus
  exp_range : Option (Bucket × Bucket)
  location : Option String
  canonical_text : String
  updated_at : Nat
deriving DecidableEq, Repr

/-- Modelled from the spec: the optional filters of
`match_postings_for_profile` (§6): an experience-level bucket and a set of
locations, each independently absent for "no constraint". -/
structure Filters where
  experience_level : Option Bucket
  locations : Option (List String)
deriving DecidableEq, Repr

/-- Modelled from the spec: experience-level filter (§4.3) — the candidate
posting is eligible if the query declares no level, if the posting declares
no requirement, or if the query's bucket falls within the posting's accepted
bucket range. -/
def expOk (f : Filters) (j : Posting) : Bool :=
  match f.experience_level with
  | none => true
  | some b =>
    match j.exp_range with
    | none => true
    | some (lo, hi) => decide (lo ≤ b) && decide (b ≤ hi)

/-- Modelled from the spec: location filter (§4.3) — eligible if the two
location sets intersect, or either side is empty/unspecified. -/
def locOk (f : Filters) (j : Posting) : Bool :=
  match f.locations with
  | none => true
  | some qs =>
    qs.isEmpty ||
      (match j.location with
       | none => true
       | some l => qs.contains l)

/-- Modelled from the spec: conjunction of the hard constraints on a
candidate posting (§4.3): `status = published`, experience filter, location
filter. -/
def eligible_posting (f : Filters) (j : Posting) : Bool :=
  decide (j.status = JobStatus.published) && expOk f j && locOk f j

/-- Modelled from the spec: the persistence layer's record store (§6) — all
profiles and postings by id. -/
structure DB where
  profiles : List Profile
  postings : List Posting
deriving DecidableEq, Repr

/-- Modelled from the spec: the eligible pool of candidate postings for a
profile→postings query (§4.3, §4.6) — published postings passing all present
filters. -/
def eligible_postings (f : Filters) (db : DB) : List Posting :=
  db.postings.filter (eligible_posting f)

/-- Modelled from the spec: the eligible pool of candidate profiles for a
posting→profiles query (§4.3, §4.6) — exactly the public profiles. -/
def eligible_profiles (db : DB) : List Profile :=
  db.profiles.filter (·.is_public)

/-- Look up the anchor profile by id. -/
def find_profile (db : DB) (pid : Nat) : Option Profile :=
  db.profiles.find? (fun p => decide (p.id = pid))

/-- Look up the anchor posting by id. -/
def find_posting (db : DB) (jid : Nat) : Option Posting :=
  db.postings.find? (fun j => decide (j.id = jid))

/-! ## Similarity Scorer (§4.4) -/

/-- Modelled from the spec: an embedding vector, a fixed-dimension numeric
vector returned by the Embedding Gateway (§2).  Components are modelled as
real numbers. -/
abbrev Vec := List ℝ

/-- Dot product of two vectors. -/
def dot (a b : Vec) : ℝ :=
  (List.zipWith (fun x y => x * y) a b).sum

/-- Euclidean magnitude of a vector. -/
noncomputable def magnitude (v : Vec) : ℝ :=
  Real.sqrt (dot v v)

/-- Modelled from the spec: the minimum possible similarity value, assigned
to degenerate (zero-magnitude) vectors so the candidate sorts last (§4.4).
Cosine similarity ranges over `[-1, 1]`, so the minimum is `-1`. -/
def minScore : ℝ := -1

/-- Modelled from the spec: cosine similarity `dot(a,b) / (||a|| * ||b||)`,
with the degenerate zero-magnitude case mapped to the minimum possible value
instead of failing (§4.4). -/
noncomputable def score (q c : Vec) : ℝ :=
  if magnitude q = 0 ∨ magnitude c = 0 then minScore
  else dot q c / (magnitude q * magnitude c)

/-! ## Ranker (§4.5) -/

/-- Modelled from the spec: a scored candidate as it enters the Ranker — the
matched entity's id, its similarity score, and its `updated_at` (§4.5).  The
score type is kept abstract; the facade instantiates it with `ℝ`. -/
structure Scored (α : Type) where
  id : Nat
  score : α
  updated_at : Nat
deriving DecidableEq

/-- Modelled from the spec: the Ranker's total order (§4.5) — score
descending, then `updated_at` descending, then entity id ascending. -/
def rankLE {α : Type} [LinearOrder α] (a b : Scored α) : Prop :=
  b.score < a.score ∨
    (a.score = b.score ∧
      (b.updated_at < a.updated_at ∨
        (a.updated_at = b.updated_at ∧ a.id ≤ b.id)))

instance {α : Type} [LinearOrder α] : DecidableRel (rankLE (α := α)) := by
  intro a b
  unfold rankLE
  infer_instance

instance {α : Type} [LinearOrder α] : IsTotal (Scored α) rankLE where
  total a b := by
    unfold rankLE
    rcases lt_trichotomy a.score b.score with h | h | h
    · exact Or.inr (Or.inl h)
    · rcases lt_trichotomy a.updated_at b.updated_at with h' | h' | h'
      · exact Or.inr (Or.inr ⟨h.symm, Or.inl h'⟩)
      · rcases Nat.le_total a.id b.id with h'' | h''
        · exact Or.inl (Or.inr ⟨h, Or.inr ⟨h', h''⟩⟩)
        · exact Or.inr (Or.inr ⟨h.symm, Or.inr ⟨h'.symm, h''⟩⟩)
      · exact Or.inl (Or.inr ⟨h, Or.inl h'⟩)
    · exact Or.inl (Or.inl h)

instance {α : Type} [LinearOrder α] : IsTrans (Scored α) rankLE where
  trans a b c hab hbc := by
    unfold rankLE at hab hbc ⊢
    rcases hab with hab | ⟨hs₁, hab⟩
    · rcases hbc with hbc | ⟨hs₂, _⟩
      · exact Or.inl (lt_trans hbc hab)
      · exact Or.inl (hs₂ ▸ hab)
    · rcases hbc with hbc | ⟨hs₂, hbc⟩
      · exact Or.inl (hs₁ ▸ hbc)
      · refine Or.inr ⟨hs₁.trans hs₂, ?_⟩
        rcases hab with hab | ⟨hu₁, hab⟩
        · rcases hbc with hbc | ⟨hu₂, _⟩
          · exact Or.inl (lt_trans hbc hab)
          · exact Or.inl (hu₂ ▸ hab)
        · rcases hbc with hbc | ⟨hu₂, hbc⟩
          · exact Or.inl (hu₁ ▸ hbc)
          · exact Or.inr ⟨hu₁.trans hu₂, Nat.le_trans hab hbc⟩

instance {α : Type} [LinearOrder α] : IsAntisymm (Scored α) rankLE where
  antisymm a b hab hba := by
    unfold rankLE at hab hba
    rcases hab with hab | ⟨hs₁, hab⟩
    · rcases hba with hba | ⟨hs₂, _⟩
      · exact absurd hab (lt_asymm hba)
      · exact absurd hab (hs₂ ▸ lt_irrefl _)
    · rcases hba with hba | ⟨_, hba⟩
      · exact absurd hba (hs₁ ▸ lt_irrefl _)
      · rcases hab with hab | ⟨hu₁, hab⟩
        · rcases hba with hba | ⟨hu₂, _⟩
          · exact absurd hab (lt_asymm hba)
          · exact absurd hab (hu₂ ▸ lt_irrefl _)
        · rcases hba with hba | ⟨_, hba⟩
          · exact absurd hba (hu₁ ▸ lt_irrefl _)
          · cases a
            cases b
            simp only [Scored.mk.injEq]
            exact ⟨Nat.le_antisymm hab hba, hs₁, hu₁⟩

/-- Modelled from the spec: the fully ordered sequence of scored candidates
under the Ranker's total order (§4.5). -/
def rankAll {α : Type} [LinearOrder α] (cands : List (Scored α)) :
    List (Scored α) :=
  List.insertionSort rankLE cands

/-- Modelled from the spec: `rank(scored_candidates, limit, offset)` — the
offset/limit slice of the fully ordered sequence (§4.5). -/
def rank {α : Type} [LinearOrder α] (cands : List (Scored α))
    (limit offset : Nat) : List (Scored α) :=
  ((rankAll cands).drop offset).take limit

/-! ## Vector Store (§4.2) -/

/-- Modelled from the spec: the content hash of a canonical text (§3, §4.2).
The backend's concrete hash function is not in the source tree; any
deterministic function of the text serves the model. -/
def hashText (s : String) : Nat :=
  s.data.foldl (fun h c => (h * 31 + c.toNat) % 1000000007) 7

/-- An entity's current content hash: the hash of its canonical text (§3). -/
def Profile.content_hash (p : Profile) : Nat := hashText p.canonical_text

/-- An entity's current content hash: the hash of its canonical text (§3). -/
def Posting.content_hash (j : Posting) : Nat := hashText j.canonical_text

/-- Modelled from the spec: a stored embedding — the numeric vector, the
content hash it was computed from, and the stale marker (§3, §4.2). -/
structure VecEntry where
  vector : Vec
  hash : Nat
  stale : Bool

/-- Modelled from the spec: the Vector Store's persisted state — one
embedding per entity id (§4.2). -/
abbrev VecStore := List (Nat × VecEntry)

/-- Vector Store lookup: `get(entity_id) -> vector | absent` (§4.2). -/
def vec_get (s : VecStore) (eid : Nat) : Option VecEntry :=
  (s.find? (fun kv => decide (kv.1 = eid))).map Prod.snd

/-- Persist an entry under an entity id, replacing any previous one. -/
def vec_set (s : VecStore) (eid : Nat) (e : VecEntry) : VecStore :=
  match s with
  | [] => [(eid, e)]
  | kv :: rest =>
    if kv.1 = eid then (eid, e) :: rest else kv :: vec_set rest eid e

/-- Modelled from the spec: the Embedding Gateway, an external collaborator
mapping canonical text to a vector; `none` stands for any of its failure
modes — timeout, rate-limit, malformed response (§2, §6). -/
abbrev Gateway := String → Option Vec

/-- A Gateway that fails every call, for stating failure-handling
properties. -/
def gw_down : Gateway := fun _ => none

/-- Result of `ensure_fresh`: the vector handed back to the pipeline (absent
only when no vector exists and the Gateway failed), the updated store, and
how many Gateway calls were issued. -/
structure FreshResult where
  entry : Option VecEntry
  store : VecStore
  calls : Nat

/-- Modelled from the spec: `ensure_fresh(entity)` (§4.2) — computes the
hash of the entity's canonical text; if no vector exists or the stored hash
differs, calls the Embedding Gateway and persists `(vector, hash)`; returns
the vector, fresh, or on Gateway failure the last-known vector marked
`stale = true`. -/
def ensure_fresh (gw : Gateway) (s : VecStore) (eid : Nat) (text : String) :
    FreshResult :=
  let h := hashText text
  match vec_get s eid with
  | some e =>
    if e.hash = h then ⟨some e, s, 0⟩
    else
      match gw text with
      | some v =>
        let e' : VecEntry := ⟨v, h, false⟩
        ⟨some e', vec_set s eid e', 1⟩
      | none =>
        let e' : VecEntry := ⟨e.vector, e.hash, true⟩
        ⟨some e', vec_set s eid e', 1⟩
  | none =>
    match gw text with
    | some v =>
      let e' : VecEntry := ⟨v, h, false⟩
      ⟨some e', vec_set s eid e', 1⟩
    | none => ⟨none, s, 1⟩

/-! ## Matching Facade (§4.6, §6, §7) -/

/-- Modelled from the spec: the error taxonomy surfaced to callers (§7) —
`NotFound` for a missing anchor entity, `InvalidFilter` for an out-of-range
`limit`. -/
inductive MatchError where
  | NotFound
  | InvalidFilter
deriving DecidableEq, Repr

/-- Modelled from the spec: the fixed cap on `limit` (§4.5). -/
def maxLimit : Nat := 100

/-- Modelled from the spec: `limit` must be positive and capped (§4.5, §7);
with a `Nat` offset, negative offsets cannot be expressed. -/
def validLimit (limit : Nat) : Bool :=
  decide (0 < limit) && decide (limit ≤ maxLimit)

/-- Modelled from the spec: one row of `match_postings_for_profile`'s reply:
`{posting_id, score, rank}` (§6). -/
structure PostingMatchItem where
  posting_id : Nat
  score : ℝ
  rank : Nat

/-- Modelled from the spec: `match_postings_for_profile`'s reply:
`{items, total_eligible}` (§6). -/
structure PostingMatchPage where
  items : List PostingMatchItem
  total_eligible : Nat

/-- Modelled from the spec: one row of `match_profiles_for_posting`'s reply:
`{profile_id, score, rank}` (§6). -/
structure ProfileMatchItem where
  profile_id : Nat
  score : ℝ
  rank : Nat

/-- Modelled from the spec: `match_profiles_for_posting`'s reply:
`{items, total_eligible}` (§6). -/
structure ProfileMatchPage where
  items : List ProfileMatchItem
  total_eligible : Nat

/-- The Vector Store's two keyspaces: profile vectors and posting vectors. -/
structure Stores where
  pvecs : VecStore
  jvecs : VecStore

/-- Modelled from the spec: batched ensure-fresh over the eligible
candidates (§4.6), threading the store; candidates for which no vector can
be obtained (none stored and Gateway down) are skipped. -/
def refresh_cands {β : Type} (idOf : β → Nat) (textOf : β → String)
    (gw : Gateway) (s : VecStore) : List β → VecStore × List (β × VecEntry)
  | [] => (s, [])
  | b :: rest =>
    let r := ensure_fresh gw s (idOf b) (textOf b)
    let tl := refresh_cands idOf textOf gw r.store rest
    match r.entry with
    | some e => (tl.1, (b, e) :: tl.2)
    | none => (tl.1, tl.2)

/-- Attach 1-based rank numbers (continuing from `offset`) to a ranked slice,
building reply rows. -/
def number_from {γ : Type} (mk : Nat → ℝ → Nat → γ) (offset i : Nat) :
    List (Scored ℝ) → List γ
  | [] => []
  | sc :: rest => mk sc.id sc.score (offset + i + 1) :: number_from mk offset (i + 1) rest

/-- Modelled from the spec: `match_postings_for_profile(profile_id, filters,
limit, offset)` (§4.6, §6) — reject with `NotFound` if the anchor profile is
missing, validate `limit`, ensure-fresh the profile vector, filter published
postings by the filters, ensure-fresh each eligible posting's vector, score,
rank, paginate.  Returns the reply (or error) together with the updated
vector stores. -/
noncomputable def match_postings_for_profile (gw : Gateway) (db : DB)
    (st : Stores) (profile_id : Nat) (filters : Filters)
    (limit offset : Nat) : Except MatchError PostingMatchPage × Stores :=
  match find_profile db profile_id with
  | none => (Except.error MatchError.NotFound, st)
  | some p =>
    if validLimit limit then
      let eligible := eligible_postings filters db
      let r₀ := ensure_fresh gw st.pvecs p.id p.canonical_text
      match r₀.entry with
      | none => (Except.ok ⟨[], eligible.length⟩, ⟨r₀.store, st.jvecs⟩)
      | some qe =>
        let rc := refresh_cands Posting.id Posting.canonical_text gw st.jvecs eligible
        let scored := rc.2.map
          (fun je => Scored.mk je.1.id (score qe.vector je.2.vector) je.1.updated_at)
        let items := number_from PostingMatchItem.mk offset 0 (rank scored limit offset)
        (Except.ok ⟨items, eligible.length⟩, ⟨r₀.store, rc.1⟩)
    else (Except.error MatchError.InvalidFilter, st)

/-- Modelled from the spec: `match_profiles_for_posting(posting_id, limit,
offset)` (§4.6, §6) — reject with `NotFound` if the anchor posting is
missing, validate `limit`, ensure-fresh the posting vector, filter public
profiles, ensure-fresh each eligible profile's vector, score, rank,
paginate. -/
noncomputable def match_profiles_for_posting (gw : Gateway) (db : DB)
    (st : Stores) (posting_id : Nat) (limit offset : Nat) :
    Except MatchError ProfileMatchPage × Stores :=
  match find_posting db posting_id with
  | none => (Except.error MatchError.NotFound, st)
  | some j =>
    if validLimit limit then
      let eligible := eligible_profiles db
      let r₀ := ensure_fresh gw st.jvecs j.id j.canonical_text
      match r₀.entry with
      | none => (Except.ok ⟨[], eligible.length⟩, ⟨st.pvecs, r₀.store⟩)
      | some qe =>
        let rc := refresh_cands Profile.id Profile.canonical_text gw st.pvecs eligible
        let scored := rc.2.map
          (fun pe => Scored.mk pe.1.id (score qe.vector pe.2.vector) pe.1.updated_at)
        let items := number_from ProfileMatchItem.mk offset 0 (rank scored limit offset)
        (Except.ok ⟨items, eligible.length⟩, ⟨rc.1, r₀.store⟩)
    else (Except.error MatchError.InvalidFilter, st)

/-! ## Frontend API client (embedded from the source) -/

/-- An HTTP response as the frontend request helper observes it: the `ok`
flag, the numeric status, the body text, and the outcome of `res.json()`
(`none` when the body is not valid JSON, in which case the promise
rejects).  From `frontend/src/lib/api.ts` / `frontend/src/lib/auth.tsx`. -/
structure HttpResponse (T : Type) where
  ok : Bool
  status : Nat
  body : String
  json : Option T

/-- The frontend API client's request helper, embedded from
`frontend/src/lib/api.ts` lines 8–21 (same body in `auth.tsx`): on a non-ok
response it throws `Error` with message `API ${res.status}: ${body}`;
otherwise it returns the parsed JSON body. -/
def request {T : Type} (res : HttpResponse T) : Except String T :=
  if !res.ok then
    Except.error ("API " ++ toString res.status ++ ": " ++ res.body)
  else
    match res.json with
    | some t => Except.ok t
    | none => Except.error "Unexpected end of JSON input"

/-! ## Concrete scenario data (§8) -/

/-- Scenario posting A (§8): published, no experience-level requirement. -/
def postingA : Posting :=
  ⟨1, JobStatus.published, none, none, "posting a", 5⟩

/-- Scenario posting B (§8): published, requires at least "senior". -/
def postingB : Posting :=
  ⟨2, JobStatus.published, some (Bucket.senior, Bucket.lead), none, "posting b", 6⟩

/-- Scenario database holding postings A and B. -/
def dbAB : DB := ⟨[], [postingA, postingB]⟩

/-- Scenario filters (§8): `experience_level = "junior"`, no location
constraint. -/
def juniorF : Filters := ⟨some Bucket.junior, none⟩

/-- A public profile and a private profile of otherwise identical content
(§8's filter-correctness check). -/
def pubProfile : Profile := ⟨1, true, none, [], "same text", 3⟩

/-- The private twin of `pubProfile`. -/
def privProfile : Profile := ⟨2, false, none, [], "same text", 3⟩

/-- Scenario database holding the public/private profile pair. -/
def dbPP : DB := ⟨[pubProfile, privProfile], []⟩

/-- Gateway-failure scenario (§8): a profile whose content has moved past
its stored vector. -/
def profC9 : Profile := ⟨1, true, none, [], "profile v2", 9⟩

/-- The anchor's stored vector, computed from a prior, different content
version (its hash does not match the current content hash). -/
def qeC9 : VecEntry := ⟨[1, 0], 12345, false⟩

/-- A published candidate posting for the Gateway-failure scenario. -/
def postingC9 : Posting := ⟨5, JobStatus.published, none, none, "posting v1", 4⟩

/-- Gateway-failure scenario database. -/
def dbC9 : DB := ⟨[profC9], [postingC9]⟩

/-- Gateway-failure scenario vector stores: both the anchor and the
candidate have last-known vectors. -/
def storesC9 : Stores := ⟨[(1, qeC9)], [(5, VecEntry.mk [0, 1] 777 false)]⟩

/-! ## Helper lemmas -/

theorem dot_unit_e1_e1 : dot [1, 0] [1, 0] = (1 : ℝ) := by
  norm_num [dot]

theorem dot_unit_e2_e2 : dot [0, 1] [0, 1] = (1 : ℝ) := by
  norm_num [dot]

theorem dot_unit_e1_e2 : dot [1, 0] [0, 1] = (0 : ℝ) := by
  norm_num [dot]

theorem magnitude_unit_e1 : magnitude [1, 0] = 1 := by
  rw [magnitude, dot_unit_e1_e1, Real.sqrt_one]

theorem magnitude_unit_e2 : magnitude [0, 1] = 1 := by
  rw [magnitude, dot_unit_e2_e2, Real.sqrt_one]

theorem magnitude_unit_e1_ne_zero : magnitude [1, 0] ≠ 0 := by
  rw [magnitude_unit_e1]; norm_num

theorem magnitude_unit_e2_ne_zero : magnitude [0, 1] ≠ 0 := by
  rw [magnitude_unit_e2]; norm_num

theorem vec_get_set_self (s : VecStore) (eid : Nat) (e : VecEntry) :
    vec_get (vec_set s eid e) eid = some e := by
  induction s with
  | nil => simp [vec_set, vec_get, List.find?]
  | cons kv rest ih =>
    by_cases h : kv.1 = eid
    · simp [vec_set, h, vec_get, List.find?]
    · simp only [vec_set, if_neg h]
      simp only [vec_get, List.find?, decide_eq_true_eq, if_neg h] at ih ⊢
      rw [decide_eq_false h]
      exact ih

theorem vec_get_set_ne (s : VecStore) (eid eid' : Nat) (e : VecEntry)
    (h : eid' ≠ eid) : vec_get (vec_set s eid e) eid' = vec_get s eid' := by
  induction s with
  | nil => simp [vec_set, vec_get, List.find?, decide_eq_false (Ne.symm h)]
  | cons kv rest ih =>
    by_cases hk : kv.1 = eid
    · simp only [vec_set, if_pos hk, vec_get, List.find?]
      rw [decide_eq_false (Ne.symm h), decide_eq_false (by rw [hk]; exact Ne.symm h)]
    · simp only [vec_set, if_neg hk, vec_get, List.find?]
      cases hd : decide (kv.1 = eid') with
      | true => rfl
      | false => exact ih

theorem ensure_fresh_hit (gw : Gateway) (s : VecStore) (eid : Nat)
    (text : String) (e : VecEntry) (h : vec_get s eid = some e)
    (hh : e.hash = hashText text) :
    ensure_fresh gw s eid text = ⟨some e, s, 0⟩ := by
  simp [ensure_fresh, h, hh]

theorem ensure_fresh_refresh (gw : Gateway) (s : VecStore) (eid : Nat)
    (text : String) (e : VecEntry) (v : Vec) (h : vec_get s eid = some e)
    (hh : ¬e.hash = hashText text) (hg : gw text = some v) :
    ensure_fresh gw s eid text =
      ⟨some ⟨v, hashText text, false⟩,
        vec_set s eid ⟨v, hashText text, false⟩, 1⟩ := by
  simp [ensure_fresh, h, hh, hg]

theorem ensure_fresh_fallback (gw : Gateway) (s : VecStore) (eid : Nat)
    (text : String) (e : VecEntry) (h : vec_get s eid = some e)
    (hh : ¬e.hash = hashText text) (hg : gw text = none) :
    ensure_fresh gw s eid text =
      ⟨some ⟨e.vector, e.hash, true⟩,
        vec_set s eid ⟨e.vector, e.hash, true⟩, 1⟩ := by
  simp [ensure_fresh, h, hh, hg]

theorem ensure_fresh_new (gw : Gateway) (s : VecStore) (eid : Nat)
    (text : String) (v : Vec) (h : vec_get s eid = none)
    (hg : gw text = some v) :
    ensure_fresh gw s eid text =
      ⟨some ⟨v, hashText text, false⟩,
        vec_set s eid ⟨v, hashText text, false⟩, 1⟩ := by
  simp [ensure_fresh, h, hg]

theorem ensure_fresh_absent (gw : Gateway) (s : VecStore) (eid : Nat)
    (text : String) (h : vec_get s eid = none) (hg : gw text = none) :
    ensure_fresh gw s eid text = ⟨none, s, 1⟩ := by
  simp [ensure_fresh, h, hg]

theorem ensure_fresh_down_vector (s : VecStore) (eid : Nat) (text : String)
    (eid' : Nat) :
    (vec_get (ensure_fresh gw_down s eid text).store eid').map
        (fun e => e.vector)
      = (vec_get s eid').map (fun e => e.vector) := by
  cases hg : vec_get s eid with
  | none => rw [ensure_fresh_absent gw_down s eid text hg rfl]
  | some e =>
    by_cases hh : e.hash = hashText text
    · rw [ensure_fresh_hit gw_down s eid text e hg hh]
    · rw [ensure_fresh_fallback gw_down s eid text e hg hh rfl]
      by_cases he : eid' = eid
      · subst he
        rw [vec_get_set_self, hg]
        simp
      · rw [vec_get_set_ne _ _ _ _ he]

theorem refresh_cands_cons {β : Type} (idOf : β → Nat) (textOf : β → String)
    (gw : Gateway) (s : VecStore) (b : β) (rest : List β) :
    refresh_cands idOf textOf gw s (b :: rest) =
      match (ensure_fresh gw s (idOf b) (textOf b)).entry with
      | some e =>
        ((refresh_cands idOf textOf gw
            (ensure_fresh gw s (idOf b) (textOf b)).store rest).1,
          (b, e) :: (refresh_cands idOf textOf gw
            (ensure_fresh gw s (idOf b) (textOf b)).store rest).2)
      | none =>
        ((refresh_cands idOf textOf gw
            (ensure_fresh gw s (idOf b) (textOf b)).store rest).1,
          (refresh_cands idOf textOf gw
            (ensure_fresh gw s (idOf b) (textOf b)).store rest).2) := rfl

theorem refresh_cands_fst {β : Type} (idOf : β → Nat) (textOf : β → String)
    (gw : Gateway) (s : VecStore) (b : β) (rest : List β) :
    (refresh_cands idOf textOf gw s (b :: rest)).1
      = (refresh_cands idOf textOf gw
          (ensure_fresh gw s (idOf b) (textOf b)).store rest).1 := by
  rw [refresh_cands_cons]
  cases h : (ensure_fresh gw s (idOf b) (textOf b)).entry <;> simp

theorem refresh_cands_down_vector {β : Type} (idOf : β → Nat)
    (textOf : β → String) :
    ∀ (cands : List β) (s : VecStore) (eid' : Nat),
      (vec_get (refresh_cands idOf textOf gw_down s cands).1 eid').map
          (fun e => e.vector)
        = (vec_get s eid').map (fun e => e.vector) := by
  intro cands
  induction cands with
  | nil => intro s eid'; rfl
  | cons b rest ih =>
    intro s eid'
    rw [refresh_cands_fst, ih, ensure_fresh_down_vector]

theorem refresh_cands_down_mem {β : Type} (idOf : β → Nat)
    (textOf : β → String) :
    ∀ (cands : List β) (s : VecStore) (b : β), b ∈ cands →
      ∀ e, vec_get s (idOf b) = some e →
        ∃ e', (b, e') ∈ (refresh_cands idOf textOf gw_down s cands).2
          ∧ e'.vector = e.vector := by
  intro cands
  induction cands with
  | nil =>
    intro s b hb
    exact absurd hb (List.not_mem_nil b)
  | cons c rest ih =>
    intro s b hb e he
    rcases List.mem_cons.mp hb with rfl | hb'
    · by_cases hh : e.hash = hashText (textOf b)
      · refine ⟨e, ?_, rfl⟩
        rw [refresh_cands_cons, ensure_fresh_hit gw_down s (idOf b) (textOf b) e he hh]
        exact List.mem_cons_self _ _
      · refine ⟨⟨e.vector, e.hash, true⟩, ?_, rfl⟩
        rw [refresh_cands_cons,
          ensure_fresh_fallback gw_down s (idOf b) (textOf b) e he hh rfl]
        exact List.mem_cons_self _ _
    · have hmap := ensure_fresh_down_vector s (idOf c) (textOf c) (idOf b)
      rw [he] at hmap
      obtain ⟨e₂, hget₂, hv₂⟩ := Option.map_eq_some'.mp hmap
      obtain ⟨e', hmem, hv'⟩ :=
        ih (ensure_fresh gw_down s (idOf c) (textOf c)).store b hb' e₂ hget₂
      refine ⟨e', ?_, by rw [hv', hv₂]⟩
      rw [refresh_cands_cons]
      cases hre : (ensure_fresh gw_down s (idOf c) (textOf c)).entry with
      | none => simpa using hmem
      | some e₃ => exact List.mem_cons_of_mem _ hmem

theorem number_from_get_rank : ∀ (offset i : Nat) (l : List (Scored ℝ))
    (k : Nat) (h : k < (number_from PostingMatchItem.mk offset i l).length),
    ((number_from PostingMatchItem.mk offset i l).get ⟨k, h⟩).rank
      = offset + i + k + 1 := by
  intro offset i l
  induction l generalizing i with
  | nil =>
    intro k h
    simp [number_from] at h
  | cons sc rest ih =>
    intro k h
    cases k with
    | zero => simp [number_from]
    | succ k' =>
      have h' : k' < (number_from PostingMatchItem.mk offset (i + 1) rest).length := by
        simpa [number_from] using h
      have := ih (i + 1) k' h'
      simp only [number_from, List.get_cons_succ]
      rw [this]
      omega

/-! ## Claim theorems -/

/-- C1: `score` is cosine similarity `dot(q,c) / (||q|| * ||c||)` whenever
both magnitudes are non-zero; a zero-magnitude vector on either side yields
the minimum possible score instead of a failure; and on the spec's unit
vectors, `score [1,0] [1,0] = 1` and `score [1,0] [0,1] = 0`. -/
theorem score_cosine_spec :
    (∀ q c : Vec, magnitude q ≠ 0 → magnitude c ≠ 0 →
        score q c = dot q c / (magnitude q * magnitude c))
    ∧ (∀ q c : Vec, magnitude q = 0 ∨ magnitude c = 0 → score q c = minScore)
    ∧ score [1, 0] [1, 0] = 1
    ∧ score [1, 0] [0, 1] = 0 := by
  refine ⟨?_, ?_, ?_, ?_⟩
  · intro q c hq hc
    rw [score, if_neg]
    push_neg
    exact ⟨hq, hc⟩
  · intro q c h
    rw [score, if_pos h]
  · have hne : ¬(magnitude [1, 0] = 0 ∨ magnitude [1, 0] = 0) := by
      push_neg
      exact ⟨magnitude_unit_e1_ne_zero, magnitude_unit_e1_ne_zero⟩
    rw [score, if_neg hne, dot_unit_e1_e1, magnitude_unit_e1]
    norm_num
  · have hne : ¬(magnitude [1, 0] = 0 ∨ magnitude [0, 1] = 0) := by
      push_neg
      exact ⟨magnitude_unit_e1_ne_zero, magnitude_unit_e2_ne_zero⟩
    rw [score, if_neg hne, dot_unit_e1_e2, magnitude_unit_e1, magnitude_unit_e2]
    norm_num

/-- Witness for C1 at the concrete unit vectors. -/
theorem score_cosine_spec_witness :
    magnitude [1, 0] ≠ 0 ∧
      score [1, 0] [1, 0] =
        dot [1, 0] [1, 0] / (magnitude [1, 0] * magnitude [1, 0]) :=
  ⟨magnitude_unit_e1_ne_zero,
    score_cosine_spec.1 [1, 0] [1, 0] magnitude_unit_e1_ne_zero
      magnitude_unit_e1_ne_zero⟩

/-- C2: `rank` is the offset/limit slice of the fully ordered sequence under
score-descending / `updated_at`-descending / id-ascending order; the ordered
sequence is sorted, is a permutation of the candidates, and is the unique
such list — so ranking any fixed candidate set is deterministic, including
under tied scores. -/
theorem rank_deterministic_spec {α : Type} [LinearOrder α]
    (cands : List (Scored α)) (limit offset : Nat) :
    rank cands limit offset = ((rankAll cands).drop offset).take limit
    ∧ List.Sorted rankLE (rankAll cands)
    ∧ List.Perm (rankAll cands) cands
    ∧ ∀ l' : List (Scored α),
        List.Perm l' cands → List.Sorted rankLE l' → l' = rankAll cands := by
  refine ⟨rfl, List.sorted_insertionSort _ _, List.perm_insertionSort _ _, ?_⟩
  intro l' hp hs
  exact List.eq_of_perm_of_sorted
    (hp.trans (List.perm_insertionSort rankLE cands).symm) hs
    (List.sorted_insertionSort _ _)

/-- Witness for C2: two candidates tie on score; the sorted order puts the
later-updated one first, and it is the unique sorted permutation. -/
theorem rank_deterministic_spec_witness :
    List.Perm [Scored.mk 2 (80 : ℕ) 20, Scored.mk 1 80 10]
        [Scored.mk 1 80 10, Scored.mk 2 80 20]
    ∧ List.Sorted rankLE [Scored.mk 2 (80 : ℕ) 20, Scored.mk 1 80 10]
    ∧ [Scored.mk 2 (80 : ℕ) 20, Scored.mk 1 80 10] =
        rankAll [Scored.mk 1 80 10, Scored.mk 2 80 20] := by
  have hp : List.Perm [Scored.mk 2 (80 : ℕ) 20, Scored.mk 1 80 10]
      [Scored.mk 1 80 10, Scored.mk 2 80 20] := by decide
  have hs : List.Sorted rankLE [Scored.mk 2 (80 : ℕ) 20, Scored.mk 1 80 10] := by
    decide
  exact ⟨hp, hs,
    (rank_deterministic_spec [Scored.mk 1 80 10, Scored.mk 2 80 20] 5 0).2.2.2
      _ hp hs⟩

/-- C3: a profile is in the eligible pool of the posting→profiles direction
iff it is public, and a posting eligible in the profile→postings direction
is necessarily published. -/
theorem visibility_filter_spec : ∀ db : DB,
    (∀ P : Profile, P ∈ db.profiles →
      (P ∈ eligible_profiles db ↔ P.is_public = true))
    ∧ ∀ (f : Filters) (J : Posting),
        J ∈ eligible_postings f db → J.status = JobStatus.published := by
  intro db
  constructor
  · intro P hP
    constructor
    · intro h
      exact (List.mem_filter.mp h).2
    · intro h
      exact List.mem_filter.mpr ⟨hP, h⟩
  · intro f J hJ
    have h := (List.mem_filter.mp hJ).2
    unfold eligible_posting at h
    simp only [Bool.and_eq_true, decide_eq_true_eq] at h
    exact h.1.1

/-- Witness for C3: a public and a private profile of identical content —
only the public one appears in the eligible pool. -/
theorem visibility_filter_spec_witness :
    pubProfile ∈ dbPP.profiles ∧ privProfile ∈ dbPP.profiles
    ∧ (pubProfile ∈ eligible_profiles dbPP ↔ pubProfile.is_public = true)
    ∧ (privProfile ∈ eligible_profiles dbPP ↔ privProfile.is_public = true)
    ∧ pubProfile ∈ eligible_profiles dbPP
    ∧ privProfile ∉ eligible_profiles dbPP := by
  have h1 : pubProfile ∈ dbPP.profiles := by decide
  have h2 : privProfile ∈ dbPP.profiles := by decide
  have i1 := (visibility_filter_spec dbPP).1 pubProfile h1
  have i2 := (visibility_filter_spec dbPP).1 privProfile h2
  refine ⟨h1, h2, i1, i2, i1.mpr rfl, fun h => ?_⟩
  exact absurd (i2.mp h) (by decide)

/-- C6: with an experience-level filter set, a posting that declares no
requirement is eligible and a posting whose accepted range does not contain
the query's bucket is excluded; in particular the junior query keeps
no-requirement posting A and drops senior-only posting B. -/
theorem experience_filter_spec :
    (∀ (f : Filters) (b : Bucket), f.experience_level = some b →
      ∀ j : Posting,
        (j.exp_range = none → expOk f j = true)
        ∧ ∀ lo hi, j.exp_range = some (lo, hi) → ¬(lo ≤ b ∧ b ≤ hi) →
            expOk f j = false)
    ∧ postingA ∈ eligible_postings juniorF dbAB
    ∧ postingB ∉ eligible_postings juniorF dbAB := by
  refine ⟨?_, by decide, by decide⟩
  intro f b hf j
  constructor
  · intro hj
    simp [expOk, hf, hj]
  · intro lo hi hj hn
    rcases not_and_or.mp hn with h | h
    · simp [expOk, hf, hj, h]
    · simp [expOk, hf, hj, h]

/-- Witness for C6 at the junior query against senior-only posting B. -/
theorem experience_filter_spec_witness :
    juniorF.experience_level = some Bucket.junior
    ∧ postingB.exp_range = some (Bucket.senior, Bucket.lead)
    ∧ ¬(Bucket.senior ≤ Bucket.junior ∧ Bucket.junior ≤ Bucket.lead)
    ∧ expOk juniorF postingB = false := by
  refine ⟨rfl, rfl, by decide, ?_⟩
  exact (experience_filter_spec.1 juniorF Bucket.junior rfl postingB).2
    Bucket.senior Bucket.lead rfl (by decide)

/-- C7: an absent filter dimension accepts every candidate — absent
experience level, absent or empty location filter, and unspecified posting
location are all "no constraint" — and eligibility is exactly the
conjunction of the status, experience and location checks. -/
theorem absent_filter_spec : ∀ (f : Filters) (j : Posting) (db : DB),
    (f.experience_level = none → expOk f j = true)
    ∧ (f.locations = none → locOk f j = true)
    ∧ (f.locations = some [] → locOk f j = true)
    ∧ (j.location = none → locOk f j = true)
    ∧ (j ∈ eligible_postings f db ↔
        j ∈ db.postings ∧ j.status = JobStatus.published
          ∧ expOk f j = true ∧ locOk f j = true) := by
  intro f j db
  refine ⟨?_, ?_, ?_, ?_, ?_⟩
  · intro h
    simp [expOk, h]
  · intro h
    simp [locOk, h]
  · intro h
    simp [locOk, h]
  · intro h
    cases hf : f.locations with
    | none => simp [locOk, hf]
    | some qs => simp [locOk, hf, h]
  · constructor
    · intro hm
      have h := List.mem_filter.mp hm
      have h2 := h.2
      unfold eligible_posting at h2
      simp only [Bool.and_eq_true, decide_eq_true_eq] at h2
      exact ⟨h.1, h2.1.1, h2.1.2, h2.2⟩
    · rintro ⟨h1, h2, h3, h4⟩
      refine List.mem_filter.mpr ⟨h1, ?_⟩
      unfold eligible_posting
      rw [h3, h4, decide_eq_true h2]
      rfl

/-- Witness for C7: the all-absent filter accepts posting A, which is
eligible exactly because it is published and passes both checks. -/
theorem absent_filter_spec_witness :
    (Filters.mk none none).experience_level = none
    ∧ expOk (Filters.mk none none) postingA = true
    ∧ locOk (Filters.mk none none) postingA = true
    ∧ (postingA ∈ eligible_postings (Filters.mk none none) dbAB ↔
        postingA ∈ dbAB.postings ∧ postingA.status = JobStatus.published
          ∧ expOk (Filters.mk none none) postingA = true
          ∧ locOk (Filters.mk none none) postingA = true) := by
  refine ⟨rfl, ?_, ?_, ?_⟩
  · exact (absent_filter_spec (Filters.mk none none) postingA dbAB).1 rfl
  · exact (absent_filter_spec (Filters.mk none none) postingA dbAB).2.1 rfl
  · exact (absent_filter_spec (Filters.mk none none) postingA dbAB).2.2.2.2

/-- C8: when the canonical text (hence content hash) is unchanged between
two consecutive `ensure_fresh` calls and the vector can be obtained (it is
already stored fresh, or the Gateway answers), at most one Gateway call is
issued across the two calls; the second call issues none and reuses the
stored vector whose hash equals the current content hash. -/
theorem ensure_fresh_idempotent (gw : Gateway) (s : VecStore) (eid : Nat)
    (text : String)
    (h : (gw text).isSome = true
      ∨ ∃ e, vec_get s eid = some e ∧ e.hash = hashText text) :
    (ensure_fresh gw s eid text).calls
        + (ensure_fresh gw (ensure_fresh gw s eid text).store eid text).calls
        ≤ 1
    ∧ (ensure_fresh gw (ensure_fresh gw s eid text).store eid text).calls = 0
    ∧ ∃ e, vec_get (ensure_fresh gw s eid text).store eid = some e
        ∧ e.hash = hashText text
        ∧ (ensure_fresh gw (ensure_fresh gw s eid text).store eid text).entry
            = some e := by
  have key : ∃ e, vec_get (ensure_fresh gw s eid text).store eid = some e
      ∧ e.hash = hashText text ∧ (ensure_fresh gw s eid text).calls ≤ 1 := by
    cases hg : vec_get s eid with
    | some e =>
      by_cases hh : e.hash = hashText text
      · rw [ensure_fresh_hit gw s eid text e hg hh]
        exact ⟨e, hg, hh, by norm_num⟩
      · rcases h with hgw | ⟨e', he', hh'⟩
        · obtain ⟨v, hv⟩ := Option.isSome_iff_exists.mp hgw
          rw [ensure_fresh_refresh gw s eid text e v hg hh hv]
          exact ⟨⟨v, hashText text, false⟩, vec_get_set_self _ _ _, rfl, le_refl 1⟩
        · rw [hg] at he'
          cases Option.some.inj he'
          exact absurd hh' hh
    | none =>
      rcases h with hgw | ⟨e', he', _⟩
      · obtain ⟨v, hv⟩ := Option.isSome_iff_exists.mp hgw
        rw [ensure_fresh_new gw s eid text v hg hv]
        exact ⟨⟨v, hashText text, false⟩, vec_get_set_self _ _ _, rfl, le_refl 1⟩
      · rw [hg] at he'
        exact absurd he' (by simp)
  obtain ⟨e, hget, hhash, hcalls⟩ := key
  have h2 := ensure_fresh_hit gw (ensure_fresh gw s eid text).store eid text e
    hget hhash
  rw [h2]
  exact ⟨by simpa using hcalls, rfl, e, hget, hhash, rfl⟩

/-- Witness for C8: an initially empty store and a Gateway that answers —
the two consecutive calls issue exactly one Gateway call in total. -/
theorem ensure_fresh_idempotent_witness :
    (((fun _ => some [(1 : ℝ)]) : Gateway) "text").isSome = true
    ∧ (ensure_fresh (fun _ => some [(1 : ℝ)]) [] 7 "text").calls
        + (ensure_fresh (fun _ => some [(1 : ℝ)])
            (ensure_fresh (fun _ => some [(1 : ℝ)]) [] 7 "text").store
            7 "text").calls ≤ 1 :=
  ⟨rfl, (ensure_fresh_idempotent (fun _ => some [(1 : ℝ)]) [] 7 "text"
    (Or.inl rfl)).1⟩

/-- C4: both facade operations fail with `NotFound` exactly when the anchor
entity is missing, and an existing anchor with zero eligible candidates
yields an empty ranked page, not an error. -/
theorem facade_anchor_spec : ∀ (gw : Gateway) (db : DB) (st : Stores)
    (pid jid : Nat) (f : Filters) (limit offset : Nat),
    ((match_postings_for_profile gw db st pid f limit offset).1
        = Except.error MatchError.NotFound ↔ find_profile db pid = none)
    ∧ ((match_profiles_for_posting gw db st jid limit offset).1
        = Except.error MatchError.NotFound ↔ find_posting db jid = none)
    ∧ (find_profile db pid ≠ none → validLimit limit = true →
        eligible_postings f db = [] →
        (match_postings_for_profile gw db st pid f limit offset).1
          = Except.ok ⟨[], 0⟩)
    ∧ (find_posting db jid ≠ none → validLimit limit = true →
        eligible_profiles db = [] →
        (match_profiles_for_posting gw db st jid limit offset).1
          = Except.ok ⟨[], 0⟩) := by
  intro gw db st pid jid f limit offset
  refine ⟨?_, ?_, ?_, ?_⟩
  · cases hfind : find_profile db pid with
    | none => simp [match_postings_for_profile, hfind]
    | some p =>
      simp only [match_postings_for_profile, hfind]
      by_cases hval : validLimit limit
      · simp only [hval, if_true]
        cases hE : (ensure_fresh gw st.pvecs p.id p.canonical_text).entry <;>
          simp [hE]
      · simp [hval]
  · cases hfind : find_posting db jid with
    | none => simp [match_profiles_for_posting, hfind]
    | some j =>
      simp only [match_profiles_for_posting, hfind]
      by_cases hval : validLimit limit
      · simp only [hval, if_true]
        cases hE : (ensure_fresh gw st.jvecs j.id j.canonical_text).entry <;>
          simp [hE]
      · simp [hval]
  · intro hne hval helig
    obtain ⟨p, hp⟩ := Option.ne_none_iff_exists'.mp hne
    simp only [match_postings_for_profile, hp, hval, if_true, helig]
    cases hE : (ensure_fresh gw st.pvecs p.id p.canonical_text).entry with
    | none => simp [hE]
    | some qe => simp [hE, refresh_cands, rank, rankAll, number_from]
  · intro hne hval helig
    obtain ⟨j, hj⟩ := Option.ne_none_iff_exists'.mp hne
    simp only [match_profiles_for_posting, hj, hval, if_true, helig]
    cases hE : (ensure_fresh gw st.jvecs j.id j.canonical_text).entry with
    | none => simp [hE]
    | some qe => simp [hE, refresh_cands, rank, rankAll, number_from]

/-- Witness for C4: an existing anchor profile with zero eligible postings
gets an empty page; a missing anchor posting gets `NotFound`. -/
theorem facade_anchor_spec_witness :
    find_profile dbPP 1 ≠ none
    ∧ validLimit 10 = true
    ∧ eligible_postings (Filters.mk none none) dbPP = []
    ∧ (match_postings_for_profile gw_down dbPP (Stores.mk [] []) 1
        (Filters.mk none none) 10 0).1 = Except.ok ⟨[], 0⟩
    ∧ find_posting dbPP 1 = none
    ∧ (match_profiles_for_posting gw_down dbPP (Stores.mk [] []) 1 10 0).1
        = Except.error MatchError.NotFound := by
  have h1 : find_profile dbPP 1 ≠ none := by decide
  refine ⟨h1, by decide, rfl, ?_, rfl, ?_⟩
  · exact (facade_anchor_spec gw_down dbPP (Stores.mk [] []) 1 1
      (Filters.mk none none) 10 0).2.2.1 h1 (by decide) rfl
  · exact (facade_anchor_spec gw_down dbPP (Stores.mk [] []) 1 1
      (Filters.mk none none) 10 0).2.1.mpr rfl

/-- C5: `match_postings_for_profile(profile_id, filters, limit, offset)`
returns, on success, a page whose `total_eligible` counts the eligible pool
and whose items (each a `{posting_id, score, rank}` row) carry consecutive
rank numbers continuing from the offset. -/
theorem facade_shape_spec : ∀ (gw : Gateway) (db : DB) (st : Stores)
    (profile_id : Nat) (filters : Filters) (limit offset : Nat)
    (page : PostingMatchPage),
    (match_postings_for_profile gw db st profile_id filters limit offset).1
        = Except.ok page →
    page.total_eligible = (eligible_postings filters db).length
    ∧ ∀ (i : Nat) (h : i < page.items.length),
        (page.items.get ⟨i, h⟩).rank = offset + i + 1 := by
  intro gw db st pid f limit offset page hok
  cases hfind : find_profile db pid with
  | none => simp [match_postings_for_profile, hfind] at hok
  | some p =>
    by_cases hval : validLimit limit
    · simp only [match_postings_for_profile, hfind, hval, if_true] at hok
      cases hE : (ensure_fresh gw st.pvecs p.id p.canonical_text).entry with
      | none =>
        simp only [hE] at hok
        rw [Except.ok.injEq] at hok
        subst hok
        refine ⟨rfl, ?_⟩
        intro i h
        simp at h
      | some qe =>
        simp only [hE] at hok
        rw [Except.ok.injEq] at hok
        subst hok
        refine ⟨rfl, ?_⟩
        intro i h
        have := number_from_get_rank offset 0 _ i h
        simpa using this
    · simp [match_postings_for_profile, hfind, hval] at hok

/-- Witness for C5 at a concrete run with an existing anchor and an empty
candidate pool. -/
theorem facade_shape_spec_witness :
    (match_postings_for_profile gw_down dbPP (Stores.mk [] []) 1
        (Filters.mk none none) 10 0).1 = Except.ok ⟨[], 0⟩
    ∧ (PostingMatchPage.mk [] 0).total_eligible
        = (eligible_postings (Filters.mk none none) dbPP).length := by
  have h : (match_postings_for_profile gw_down dbPP (Stores.mk [] []) 1
      (Filters.mk none none) 10 0).1 = Except.ok ⟨[], 0⟩ := by rfl
  exact ⟨h, (facade_shape_spec gw_down dbPP (Stores.mk [] []) 1
    (Filters.mk none none) 10 0 (PostingMatchPage.mk [] 0) h).1⟩

/-- C9: with the Gateway failing, a query whose anchor profile has a stored
vector still succeeds (never surfaces the Gateway failure), the anchor's
last-known vector is kept and marked stale in the returned store when a
refresh was due, and every eligible posting with a stored vector stays in
the refreshed candidate pool, scored from its last-known vector. -/
theorem gateway_failure_spec : ∀ (db : DB) (st : Stores) (pid : Nat)
    (f : Filters) (limit offset : Nat) (p : Profile) (qe : VecEntry),
    find_profile db pid = some p →
    vec_get st.pvecs p.id = some qe →
    validLimit limit = true →
    (∃ page, (match_postings_for_profile gw_down db st pid f limit offset).1
        = Except.ok page)
    ∧ (qe.hash ≠ p.content_hash →
        vec_get (match_postings_for_profile gw_down db st pid f limit
            offset).2.pvecs p.id
          = some ⟨qe.vector, qe.hash, true⟩)
    ∧ ∀ j ∈ eligible_postings f db, ∀ ej, vec_get st.jvecs j.id = some ej →
        ∃ e', (j, e') ∈ (refresh_cands Posting.id Posting.canonical_text
            gw_down st.jvecs (eligible_postings f db)).2
          ∧ e'.vector = ej.vector := by
  intro db st pid f limit offset p qe hfind hvec hval
  refine ⟨?_, ?_, ?_⟩
  · by_cases hh : qe.hash = hashText p.canonical_text
    · have hr := ensure_fresh_hit gw_down st.pvecs p.id p.canonical_text qe
        hvec hh
      simp only [match_postings_for_profile, hfind, hval, if_true, hr]
      exact ⟨_, rfl⟩
    · have hr := ensure_fresh_fallback gw_down st.pvecs p.id p.canonical_text
        qe hvec hh rfl
      simp only [match_postings_for_profile, hfind, hval, if_true, hr]
      exact ⟨_, rfl⟩
  · intro hne
    have hh : ¬qe.hash = hashText p.canonical_text := by
      rw [Profile.content_hash] at hne
      exact hne
    have hr := ensure_fresh_fallback gw_down st.pvecs p.id p.canonical_text qe
      hvec hh rfl
    simp only [match_postings_for_profile, hfind, hval, if_true, hr]
    rw [vec_get_set_self]
  · intro j hj ej hej
    exact refresh_cands_down_mem Posting.id Posting.canonical_text
      (eligible_postings f db) st.jvecs j hj ej hej

/-- Witness for C9: a stale anchor vector, a failing Gateway and one stored
candidate — the query succeeds, the store keeps the old vector marked stale,
and the candidate is scored from its stored vector. -/
theorem gateway_failure_spec_witness :
    find_profile dbC9 1 = some profC9
    ∧ vec_get storesC9.pvecs profC9.id = some qeC9
    ∧ validLimit 10 = true
    ∧ qeC9.hash ≠ profC9.content_hash
    ∧ (∃ page, (match_postings_for_profile gw_down dbC9 storesC9 1
        (Filters.mk none none) 10 0).1 = Except.ok page)
    ∧ vec_get (match_postings_for_profile gw_down dbC9 storesC9 1
        (Filters.mk none none) 10 0).2.pvecs profC9.id
        = some ⟨qeC9.vector, qeC9.hash, true⟩ := by
  have h1 : find_profile dbC9 1 = some profC9 := by decide
  have h2 : vec_get storesC9.pvecs profC9.id = some qeC9 := by rfl
  have h3 : validLimit 10 = true := by decide
  have h4 : qeC9.hash ≠ profC9.content_hash := by decide
  have main := gateway_failure_spec dbC9 storesC9 1 (Filters.mk none none)
    10 0 profC9 qeC9 h1 h2 h3
  exact ⟨h1, h2, h3, h4, main.1, main.2.1 h4⟩

/-- C10: the frontend request helper throws `Error("API ${status}: ${body}")`
exactly when the response is not ok, returns the parsed JSON body otherwise,
and never returns data from a failed response. -/
theorem request_error_spec : ∀ (T : Type) (res : HttpResponse T),
    (res.ok = false →
        request res =
          Except.error ("API " ++ toString res.status ++ ": " ++ res.body))
    ∧ (∀ t, res.ok = true → res.json = some t → request res = Except.ok t)
    ∧ (res.ok = false → ∀ t, request res ≠ Except.ok t) := by
  intro T res
  refine ⟨?_, ?_, ?_⟩
  · intro h
    simp [request, h]
  · intro t hok hj
    simp [request, hok, hj]
  · intro h t
    simp [request, h]

/-- Witness for C10 at a concrete 500 response. -/
theorem request_error_spec_witness :
    (HttpResponse.mk false 500 "boom" none : HttpResponse Nat).ok = false
    ∧ request (HttpResponse.mk false 500 "boom" none : HttpResponse Nat) =
        Except.error ("API " ++ toString (500 : Nat) ++ ": " ++ "boom")
    ∧ request (HttpResponse.mk false 500 "boom" none : HttpResponse Nat) =
        Except.error "API 500: boom" :=
  ⟨rfl, (request_error_spec Nat (HttpResponse.mk false 500 "boom" none)).1 rfl,
    by rfl⟩

end JobFit
